import Mathlib

/-!
A verification development for the Task_Agent repository.

The Python modules `task.py` and `agent.py` are embedded shallowly:

* Python dictionaries that can hold heterogeneous values (the records fed to
  `Task.from_dict`, the metadata bags) are modelled by the inductive `PyVal`
  of Python values and association lists `PyDict` keyed by strings, with the
  same first-occurrence lookup and in-place update behaviour as `dict`.
* `datetime` objects are modelled as abstract instants (`Nat`).  Their
  ISO-8601 rendering is modelled by an injective, executable encoding
  `isoformat` together with the partial inverse `fromisoformat?`; the empty
  string does not parse, matching `datetime.fromisoformat("")` raising.
  The exact digit syntax of the rendering is external library behaviour and
  is not observed by any property below.
* The generation collaborator (`GeminiClient.generate`) and the document
  renderer (`DocumentGenerator.generate_all_formats`) are external services;
  they are modelled as oracles indexed by call order carried in `AgentState`.
  Prompt text is never observable through the oracle, so prompt assembly is
  elided where it has no other effect.
* Raising an exception is modelled by `Except.error` carrying the message;
  mutation of a task or of the agent is explicit state passing.
-/

namespace TaskAgent

/-- Task execution status, from `task.py` (`class TaskStatus(Enum)`). -/
inductive TaskStatus where
  | pending
  | in_progress
  | completed
  | failed
  | waiting_user
deriving DecidableEq

/-- The string tag of a status, `TaskStatus.value` in the source. -/
def TaskStatus.value : TaskStatus → String
  | .pending => "pending"
  | .in_progress => "in_progress"
  | .completed => "completed"
  | .failed => "failed"
  | .waiting_user => "waiting_user"

/-- The enum constructor `TaskStatus(tag)` viewed on string tags: the status
with the given value, if any. -/
def TaskStatus.ofTag? (s : String) : Option TaskStatus :=
  if s = ("pending") then some .pending
  else if s = ("in_progress") then some .in_progress
  else if s = ("completed") then some .completed
  else if s = ("failed") then some .failed
  else if s = ("waiting_user") then some .waiting_user
  else none

/-- Python values, as far as this repository stores them in dictionaries:
JSON-shaped data plus the two object kinds (`TaskStatus` members and
`datetime` instances) that `Task.from_dict` writes back into its input
record. -/
inductive PyVal where
  | vNone
  | vBool (b : Bool)
  | vInt (n : Int)
  | vStr (s : String)
  | vList (xs : List PyVal)
  | vDict (kvs : List (String × PyVal))
  | vStatus (st : TaskStatus)
  | vDatetime (t : Nat)

/-- A Python `dict` with string keys, as an association list in insertion
order; genuine `dict`s never hold a key twice. -/
abbrev PyDict := List (String × PyVal)

/-- Lookup `d[k]`: the first binding of `k`. -/
def dictGet (d : PyDict) (k : String) : Option PyVal :=
  match d with
  | [] => none
  | (k', v) :: rest => if k = k' then some v else dictGet rest k

/-- Assignment `d[k] = v`: replaces the first binding of `k` in place,
appending at the end when `k` is absent, as Python dictionaries do. -/
def dictSet (d : PyDict) (k : String) (v : PyVal) : PyDict :=
  match d with
  | [] => [(k, v)]
  | (k', v') :: rest => if k = k' then (k', v) :: rest else (k', v') :: dictSet rest k v

/-- Python truthiness of a value, used by `if data["completed_at"]:` and
`if key_findings:`. -/
def PyVal.truthy : PyVal → Bool
  | .vNone => false
  | .vBool b => b
  | .vInt n => n != 0
  | .vStr s => !s.isEmpty
  | .vList xs => !xs.isEmpty
  | .vDict kvs => !kvs.isEmpty
  | .vStatus _ => true
  | .vDatetime _ => true

mutual

/-- Whether a value is in the image of `json.load`, equivalently accepted by
`json.dump`: `TaskStatus` members and `datetime` objects are not JSON
serializable. -/
def PyVal.jsonSafe : PyVal → Bool
  | .vNone => true
  | .vBool _ => true
  | .vInt _ => true
  | .vStr _ => true
  | .vList xs => jsonSafeList xs
  | .vDict kvs => jsonSafeDict kvs
  | .vStatus _ => false
  | .vDatetime _ => false

/-- Conjunction of `jsonSafe` over a list. -/
def jsonSafeList : List PyVal → Bool
  | [] => true
  | v :: vs => v.jsonSafe && jsonSafeList vs

/-- Conjunction of `jsonSafe` over the values of a dictionary. -/
def jsonSafeDict : List (String × PyVal) → Bool
  | [] => true
  | (_, v) :: kvs => v.jsonSafe && jsonSafeDict kvs

end

/-- Model of `datetime.isoformat`: an injective rendering of the abstract
instant.  Realized by a unary encoding so that decoding is executable and
provably inverse; no property below observes the digit syntax. -/
def isoformat (t : Nat) : String :=
  String.mk (List.replicate (t + 1) 'x')

/-- Model of `datetime.fromisoformat` on strings: decodes exactly the
strings produced by `isoformat` and fails (the `ValueError` of the library)
on everything else, in particular on the empty string. -/
def fromisoformat? (s : String) : Option Nat :=
  match s.data with
  | [] => none
  | c :: cs => if (c :: cs).all (· = 'x') then some cs.length else none

/-- A task, from `task.py` (`@dataclass class Task`).  Fields as declared
there; `metadata` is the open scratch dictionary used by handlers. -/
structure Task where
  id : String
  title : String
  description : String
  status : TaskStatus := .pending
  result : Option String := none
  created_at : Nat := 0
  completed_at : Option Nat := none
  metadata : PyDict := []

/-- Serialization `Task.to_dict`: status rendered as its tag, timestamps as ISO strings,
`completed_at` rendered as `None` when unset (`datetime` objects are always
truthy, so the conditional in the source is exactly this `Option` match). -/
def Task.to_dict (t : Task) : PyDict :=
  [ ("id", .vStr t.id),
    ("title", .vStr t.title),
    ("description", .vStr t.description),
    ("status", .vStr t.status.value),
    ("result", match t.result with | some s => .vStr s | none => .vNone),
    ("created_at", .vStr (isoformat t.created_at)),
    ("completed_at", match t.completed_at with | some n => .vStr (isoformat n) | none => .vNone),
    ("metadata", .vDict t.metadata) ]

/-- The exception kinds `Task.from_dict` and the constructors can raise:
`KeyError` from a missing subscript, `ValueError` from `TaskStatus(...)` or
an unparseable timestamp, `TypeError` from `fromisoformat` on a non-string
or from calling the constructor with bad keywords. -/
inductive PyErr where
  | keyError
  | valueError
  | typeError
deriving DecidableEq

/-- The call `TaskStatus(v)`: succeeds on a known tag string, passes an
existing member through, raises `ValueError` otherwise. -/
def statusCall : PyVal → Except PyErr TaskStatus
  | .vStr s =>
      match TaskStatus.ofTag? s with
      | some st => .ok st
      | none => .error .valueError
  | .vStatus st => .ok st
  | _ => .error .valueError

/-- The call `datetime.fromisoformat(v)`: `TypeError` on a non-string,
`ValueError` on an unparseable string. -/
def fromisoCall : PyVal → Except PyErr Nat
  | .vStr s =>
      match fromisoformat? s with
      | some n => .ok n
      | none => .error .valueError
  | _ => .error .typeError

/-- The keyword parameters accepted by the `Task` dataclass constructor. -/
def taskKeys : List String :=
  ["id", "title", "description", "status", "result", "created_at", "completed_at", "metadata"]

/-- The constructor call `Task(**data)` at the end of `Task.from_dict`.
An unexpected keyword or a missing required field raises `TypeError`.
The dataclass performs no runtime type validation; this model represents
only tasks whose fields have their declared types, so a record carrying an
ill-typed `id`/`title`/`description`/`result`/`metadata` value (which Python
would store unchecked, producing an ill-typed object) is rejected here; no
property below quantifies over that region.  A falsy `completed_at` value
is stored as-is by Python; every falsy value is observationally equal to
`None` for truthiness and re-serialization, and is modelled as `none`. -/
def taskCtor (data : PyDict) : Except PyErr (Task × PyDict) :=
  if data.any (fun kv => !(taskKeys.contains kv.1)) then .error .typeError
  else
    match dictGet data ("id"), dictGet data ("title"), dictGet data ("description") with
    | some (.vStr i), some (.vStr ti), some (.vStr de) =>
      match dictGet data ("status"), dictGet data ("created_at") with
      | some (.vStatus st), some (.vDatetime cn) =>
        let result? : Except PyErr (Option String) :=
          match dictGet data ("result") with
          | none => .ok none
          | some .vNone => .ok none
          | some (.vStr s) => .ok (some s)
          | some _ => .error .typeError
        let completed? : Except PyErr (Option Nat) :=
          match dictGet data ("completed_at") with
          | none => .ok none
          | some (.vDatetime n) => .ok (some n)
          | some v => if v.truthy then .error .typeError else .ok none
        let meta? : Except PyErr PyDict :=
          match dictGet data ("metadata") with
          | none => .ok []
          | some (.vDict md) => .ok md
          | some _ => .error .typeError
        match result?, completed?, meta? with
        | .ok r, .ok co, .ok md =>
            .ok ({ id := i, title := ti, description := de, status := st,
                   result := r, created_at := cn, completed_at := co, metadata := md }, data)
        | .error e, _, _ => .error e
        | _, .error e, _ => .error e
        | _, _, .error e => .error e
      | _, _ => .error .typeError
    | _, _, _ => .error .typeError

/-- Deserialization `Task.from_dict`, line by line: parse and write back `status`,
then `created_at`, then — only when truthy — `completed_at`, then call the
constructor on the mutated record.  The mutated record is returned alongside
the task to expose the in-place update. -/
def Task.from_dict (data : PyDict) : Except PyErr (Task × PyDict) :=
  match dictGet data ("status") with
  | none => .error .keyError
  | some sv =>
    match statusCall sv with
    | .error e => .error e
    | .ok st =>
      let data := dictSet data ("status") (.vStatus st)
      match dictGet data ("created_at") with
      | none => .error .keyError
      | some cv =>
        match fromisoCall cv with
        | .error e => .error e
        | .ok cn =>
          let data := dictSet data ("created_at") (.vDatetime cn)
          match dictGet data ("completed_at") with
          | none => .error .keyError
          | some dv =>
            if dv.truthy then
              match fromisoCall dv with
              | .error e => .error e
              | .ok dn => taskCtor (dictSet data ("completed_at") (.vDatetime dn))
            else
              taskCtor data

theorem fromisoformat?_isoformat (t : Nat) : fromisoformat? (isoformat t) = some t := by
  have h : (isoformat t).data = 'x' :: List.replicate t 'x' := by
    simp [isoformat, List.replicate_succ]
  unfold fromisoformat?
  rw [h]
  simp

theorem ofTag?_value (st : TaskStatus) : TaskStatus.ofTag? st.value = some st := by
  cases st <;> rfl

theorem statusCall_value (st : TaskStatus) : statusCall (.vStr st.value) = .ok st := by
  cases st <;> rfl

theorem isoformat_ne_empty (t : Nat) : isoformat t ≠ "" := by
  intro h
  have : (isoformat t).data = 'x' :: List.replicate t 'x' := by
    simp [isoformat, List.replicate_succ]
  rw [h] at this
  exact List.noConfusion this

theorem isoformat_isEmpty (t : Nat) : (isoformat t).isEmpty = false := by
  rw [← Bool.not_eq_true, String.isEmpty_iff]
  exact isoformat_ne_empty t

theorem isoformat_truthy (t : Nat) : (PyVal.vStr (isoformat t)).truthy = true := by
  simp [PyVal.truthy, isoformat_isEmpty]

/-- The serialize→deserialize round trip on a single task: deserialization
succeeds and rebuilds the task field for field. -/
theorem from_dict_to_dict (t : Task) : (Task.from_dict t.to_dict).map Prod.fst = .ok t := by
  obtain ⟨i, ti, de, st, r, ca, co, md⟩ := t
  cases r <;> cases co <;>
    simp [Task.to_dict, Task.from_dict, dictGet, dictSet, statusCall_value,
          fromisoCall, fromisoformat?_isoformat, isoformat_truthy, isoformat_isEmpty,
          taskCtor, taskKeys, PyVal.truthy, Except.map]

/-- A workflow, from `task.py` (`@dataclass class Workflow`).  The cursor is
an `Int` since nothing in the source constrains a loaded value to be a valid
index. -/
structure Workflow where
  id : String
  title : String
  description : String
  tasks : List Task := []
  current_task_index : Int := 0
  created_at : Nat := 0
  metadata : PyDict := []

/-- Method `Workflow.add_task`: append, no uniqueness check on ids. -/
def Workflow.add_task (w : Workflow) (t : Task) : Workflow :=
  { w with tasks := w.tasks ++ [t] }

/-- Method `Workflow.get_current_task`: the task under the cursor, if in range. -/
def Workflow.get_current_task (w : Workflow) : Option Task :=
  if 0 ≤ w.current_task_index ∧ w.current_task_index < (w.tasks.length : Int) then
    w.tasks.get? w.current_task_index.toNat
  else none

/-- Method `Workflow.next_task`: advance the cursor unless at the last task;
returns whether the advance occurred. -/
def Workflow.next_task (w : Workflow) : Bool × Workflow :=
  if w.current_task_index < (w.tasks.length : Int) - 1 then
    (true, { w with current_task_index := w.current_task_index + 1 })
  else (false, w)

/-- Method `Workflow.is_complete`: every task has status completed. -/
def Workflow.is_complete (w : Workflow) : Bool :=
  w.tasks.all (fun t => decide (t.status = TaskStatus.completed))

/-- Serialization `Workflow.to_dict`: whole-workflow JSON-shaped mapping; the task list
uses `Task.to_dict`. -/
def Workflow.to_dict (w : Workflow) : PyVal :=
  .vDict
    [ ("id", .vStr w.id),
      ("title", .vStr w.title),
      ("description", .vStr w.description),
      ("tasks", .vList (w.tasks.map (fun t => .vDict t.to_dict))),
      ("current_task_index", .vInt w.current_task_index),
      ("created_at", .vStr (isoformat w.created_at)),
      ("metadata", .vDict w.metadata) ]

/-- What a file on disk can present to `Workflow.load`: unreadable (`open`
raises `IOError`), readable text that is not JSON (`json.load` raises), or a
parsed JSON value. -/
inductive FileContent where
  | unreadable
  | garbage
  | json (v : PyVal)

/-- The failure kinds of `Workflow.load` per the error taxonomy: `IOError`
for an unreadable path, `FormatError` for content of the wrong shape. -/
inductive LoadErr where
  | ioError
  | formatError
deriving DecidableEq

/-- Persistence `Workflow.save`: overwrites the target with `json.dump` of the snapshot.
`json.dump` raises `TypeError` on values that are not JSON serializable
(modelled as `none`); otherwise the stored content is the snapshot itself. -/
def Workflow.save (w : Workflow) : Option FileContent :=
  if w.to_dict.jsonSafe then some (.json w.to_dict) else none

/-- The keyword parameters accepted by the `Workflow` dataclass constructor. -/
def wfKeys : List String :=
  ["id", "title", "description", "tasks", "current_task_index", "created_at", "metadata"]

/-- The list comprehension `[Task.from_dict(td) for td in data["tasks"]]`:
the first failing task record propagates its error; a non-dict element makes
`from_dict` raise on its first subscript. -/
def tasksFromList : List PyVal → Except PyErr (List Task)
  | [] => .ok []
  | .vDict d :: rest =>
      match Task.from_dict d with
      | .error e => .error e
      | .ok (t, _) =>
        match tasksFromList rest with
        | .error e => .error e
        | .ok ts => .ok (t :: ts)
  | _ :: _ => .error .typeError

/-- The constructor call `Workflow(**data)` at the end of `Workflow.load`.
In Python the parsed task list and timestamp were written back into `data`
first; `PyVal` cannot hold task objects, so this model passes them alongside
the record, which carries the same keys.  As in `taskCtor`, fields the
dataclass stores unchecked are required to have their declared types here. -/
def wfCtor (data : PyDict) (tasks : List Task) (created : Nat) : Except PyErr Workflow :=
  if data.any (fun kv => !(wfKeys.contains kv.1)) then .error .typeError
  else
    match dictGet data ("id"), dictGet data ("title"), dictGet data ("description") with
    | some (.vStr i), some (.vStr ti), some (.vStr de) =>
      let idx? : Except PyErr Int :=
        match dictGet data ("current_task_index") with
        | none => .ok 0
        | some (.vInt n) => .ok n
        | some _ => .error .typeError
      let meta? : Except PyErr PyDict :=
        match dictGet data ("metadata") with
        | none => .ok []
        | some (.vDict md) => .ok md
        | some _ => .error .typeError
      match idx?, meta? with
      | .ok idx, .ok md =>
          .ok { id := i, title := ti, description := de, tasks := tasks,
                current_task_index := idx, created_at := created, metadata := md }
      | .error e, _ => .error e
      | _, .error e => .error e
    | _, _, _ => .error .typeError

/-- Loader `Workflow.load`: `IOError` on an unreadable path; every other failure —
text that is not JSON, a missing or ill-typed field, a bad status tag or
timestamp inside a task record — is a shape failure, `FormatError` in the
taxonomy (Python raises the grouped `KeyError`/`TypeError`/`ValueError`). -/
def Workflow.load (c : FileContent) : Except LoadErr Workflow :=
  match c with
  | .unreadable => .error .ioError
  | .garbage => .error .formatError
  | .json v =>
    match v with
    | .vDict data =>
      (match dictGet data ("created_at") with
       | none => .error .formatError
       | some cv =>
         match fromisoCall cv with
         | .error _ => .error .formatError
         | .ok cn =>
           match dictGet data ("tasks") with
           | none => .error .formatError
           | some (.vList ts) =>
             (match tasksFromList ts with
              | .error _ => .error .formatError
              | .ok tasks =>
                match wfCtor data tasks cn with
                | .error _ => .error .formatError
                | .ok w => .ok w)
           | some _ => .error .formatError)
    | _ => .error .formatError

theorem tasksFromList_map (ts : List Task) :
    tasksFromList (ts.map (fun t => .vDict t.to_dict)) = .ok ts := by
  induction ts with
  | nil => rfl
  | cons t rest ih =>
    have h := from_dict_to_dict t
    cases hfd : Task.from_dict t.to_dict with
    | error e => rw [hfd] at h; simp [Except.map] at h
    | ok p =>
      rw [hfd] at h
      simp only [Except.map] at h
      cases h
      simp [tasksFromList, hfd, ih]

/-- The save→load round trip on a workflow: whenever the snapshot is
serializable, loading it back rebuilds the workflow exactly. -/
theorem load_save (w : Workflow) (fc : FileContent) (h : w.save = some fc) :
    Workflow.load fc = .ok w := by
  unfold Workflow.save at h
  split at h
  · cases h
    obtain ⟨i, ti, de, ts, idx, ca, md⟩ := w
    simp [Workflow.load, Workflow.to_dict, dictGet, fromisoCall, fromisoformat?_isoformat,
          tasksFromList_map, wfCtor, wfKeys]
  · exact Option.noConfusion h

/-- A research paper, from `paper.py` (`@dataclass class Paper`). -/
structure Paper where
  title : String
  authors : List String := []
  year : Option Int := none
  abstract : Option String := none
  keywords : List String := []
  filepath : Option String := none
  url : Option String := none
  summary : Option String := none
  key_findings : List String := []
  metadata : PyDict := []

/-- The ambient state of a `TaskAgent` during execution, flattening the
collaborators it owns: the generation oracle (`GeminiClient`), the document
renderer oracle (`DocumentGenerator`), the paper store (`PaperManager`), the
active workflow context (`current_workflow`), the clock, and the last saved
workflow snapshot. -/
structure AgentState where
  /-- The method `GeminiClient.generate` as an oracle over the call index: either the
  generated text or the message of the exception it raises.  Prompt text,
  temperature and token limits do not influence the abstract oracle. -/
  gen : Nat → Except String String
  /-- Number of generation calls made so far. -/
  genCalls : Nat := 0
  /-- The method `DocumentGenerator.generate_all_formats` as an oracle: given content
  and base filename, the format-to-path mapping, or the message of an I/O
  exception. -/
  docGen : String → String → Except String (List (String × String))
  /-- The list `PaperManager.papers`, the in-memory list backed by the metadata file. -/
  papers : List Paper := []
  /-- The directory `PaperManager.papers_dir`, the configured papers directory. -/
  papersDir : String := "output/papers"
  /-- Whether `self.current_workflow` is set. -/
  hasWorkflow : Bool := false
  /-- The value of `self.current_workflow.description` when set. -/
  wfDescription : String := ""
  /-- The dictionary `self.current_workflow.metadata` when set; handlers mutate it through
  the shared reference. -/
  wfMeta : PyDict := []
  /-- The clock backing `datetime.now()`. -/
  now : Nat := 0
  /-- The snapshot written by `_save_workflow`, keyed by workflow id. -/
  saved : Option (String × PyVal) := none

/-- One `datetime.now()` call: the current instant, advancing the clock so
that distinct calls yield distinct instants. -/
def nowTick (st : AgentState) : Nat × AgentState :=
  (st.now, { st with now := st.now + 1 })

/-- One `self.gemini.generate(...)` call. -/
def generate (st : AgentState) : Except String String × AgentState :=
  (st.gen st.genCalls, { st with genCalls := st.genCalls + 1 })

/-- Python `pat in s` substring containment on character lists. -/
def subList (pat : List Char) : List Char → Bool
  | [] => pat.isEmpty
  | c :: rest => pat.isPrefixOf (c :: rest) || subList pat rest

/-- Python `pat in s` on strings. -/
def strContains (s pat : String) : Bool :=
  subList pat.data s.data

/-- Python `str.lower`, characterwise. -/
def pyLower (s : String) : String :=
  String.mk (s.data.map Char.toLower)

/-- Python `str.strip(chars)` / `str.strip()`: drop characters satisfying
the predicate from both ends. -/
def stripBoth (p : Char → Bool) (l : List Char) : List Char :=
  ((l.dropWhile p).reverse.dropWhile p).reverse

/-- Python `str.strip()` (whitespace). -/
def pyStripWs (s : String) : String :=
  String.mk (stripBoth Char.isWhitespace s.data)

/-- Python `line.strip("- ")`. -/
def stripDashSpace (s : String) : String :=
  String.mk (stripBoth (fun c => c = '-' || c = ' ') s.data)

/-- Python `str.split('\n')` on character lists: `""` gives one empty
field, a trailing newline a trailing empty field. -/
def splitLinesAux : List Char → List (List Char)
  | [] => [[]]
  | c :: rest =>
    if c = '\n' then [] :: splitLinesAux rest
    else
      match splitLinesAux rest with
      | h :: t => (c :: h) :: t
      | [] => [[c]]

/-- Python `analysis.split('\n')`. -/
def pySplitLines (s : String) : List String :=
  (splitLinesAux s.data).map String.mk

/-- The key-findings comprehension in `_handle_paper_analysis`:
lines whose stripped form starts with a dash, each stripped of dashes,
spaces and whitespace. -/
def extractFindings (analysis : String) : List String :=
  ((pySplitLines analysis).filter
      (fun line => ("-").data.isPrefixOf (pyStripWs line).data)).map
    (fun line => pyStripWs (stripDashSpace line))

/-- Method `PaperManager.update_paper_summary`: find the first paper whose title
matches case-insensitively, set its summary, and replace its key findings
only when the new list is truthy (non-empty); no match is a no-op. -/
def update_paper_summary (papers : List Paper) (title summary : String)
    (key_findings : List String) : List Paper :=
  match papers with
  | [] => []
  | p :: rest =>
    if pyLower p.title = pyLower title then
      { p with summary := some summary,
               key_findings := if key_findings.isEmpty then p.key_findings else key_findings }
        :: rest
    else
      p :: update_paper_summary rest title summary key_findings

/-- Method `PaperManager.generate_papers_summary`, pure; feeds only prompt text. -/
def generate_papers_summary (papers : List Paper) : String :=
  if papers.isEmpty then ("No papers available.") else ("# Papers Summary\n\n")

/-- Handler `_handle_paper_collection`: one generation call (the prompt is built
from the workflow topic, unobservable through the oracle); on success the
raw suggestions are stored under `suggested_papers` and a formatted note is
returned; the collaborator raising propagates out of the handler. -/
def handle_paper_collection (task : Task) (st : AgentState) :
    Except String String × Task × AgentState :=
  match generate st with
  | (.error e, st') => (.error e, task, st')
  | (.ok response, st') =>
      (.ok ("Generated paper suggestions:\n\n" ++ response ++
            "\n\nNote: User needs to download and upload these papers."),
       { task with metadata := dictSet task.metadata ("suggested_papers") (.vStr response) },
       st')

/-- The instruction text returned by `_handle_paper_upload`, referencing the
configured papers directory twice. -/
def uploadInstructions (papersDir : String) : String :=
  "Papers should be uploaded to: " ++ papersDir ++
    ("\n\nInstructions:\n1. Download the suggested papers\n2. Save them in the papers directory: " ++
      papersDir ++
      "\n3. Register them using the add_papers() method\n\nOnce papers are uploaded, continue to the next task.")

/-- Handler `_handle_paper_upload`: no generation call; unconditionally forces
`status = WAITING_USER` and returns the instruction text. -/
def handle_paper_upload (task : Task) (st : AgentState) :
    Except String String × Task × AgentState :=
  (.ok (uploadInstructions st.papersDir), { task with status := .waiting_user }, st)

/-- The per-paper section accumulated by `_handle_paper_analysis`: a normal
analysis section on success, an error-annotated section when the generation
call for that paper raised. -/
def analysisSection (title : String) (r : Except String String) : String :=
  match r with
  | .ok analysis => "### " ++ title ++ "\n\n" ++ analysis
  | .error e => "### " ++ title ++ "\n\nError analyzing paper: " ++ e

/-- The per-paper loop of `_handle_paper_analysis`: one generation call per
paper; a success also pushes summary and up to five extracted key findings
into the paper store; a failure is caught and recorded as an error section
without aborting the remaining papers. -/
def analysisLoop : List Paper → AgentState → List String × AgentState
  | [], st => ([], st)
  | p :: rest, st =>
    match generate st with
    | (.ok analysis, st') =>
        let kf := (extractFindings analysis).take 5
        let st'' := { st' with papers := update_paper_summary st'.papers p.title analysis kf }
        let (sections, stF) := analysisLoop rest st''
        (analysisSection p.title (.ok analysis) :: sections, stF)
    | (.error e, st') =>
        let (sections, stF) := analysisLoop rest st'
        (analysisSection p.title (.error e) :: sections, stF)

/-- Handler `_handle_paper_analysis`: a fixed notice when no papers are known;
otherwise the per-paper loop, the joined analysis stored under
`paper_analysis`, and a count header prepended to the returned text. -/
def handle_paper_analysis (task : Task) (st : AgentState) :
    Except String String × Task × AgentState :=
  let papers := st.papers
  if papers.isEmpty then
    (.ok ("No papers available for analysis. Please upload papers first."), task, st)
  else
    let (sections, st') := analysisLoop papers st
    let full := String.intercalate ("\n\n") sections
    (.ok ("Analyzed " ++ toString papers.length ++ " papers.\n\n" ++ full),
     { task with metadata := dictSet task.metadata ("paper_analysis") (.vStr full) },
     st')

/-- Handler `_handle_outline_creation`: one generation call (papers context and
prompt are unobservable through the oracle); on success the outline is
stored in the shared workflow metadata (when a workflow is active) and in
the task metadata, and returned verbatim. -/
def handle_outline_creation (task : Task) (st : AgentState) :
    Except String String × Task × AgentState :=
  match generate st with
  | (.error e, st') => (.error e, task, st')
  | (.ok outline, st') =>
      let st'' :=
        if st'.hasWorkflow then
          { st' with wfMeta := dictSet st'.wfMeta ("outline") (.vStr outline) }
        else st'
      (.ok outline,
       { task with metadata := dictSet task.metadata ("outline") (.vStr outline) },
       st'')

/-- Handler `_handle_writing`: the stored outline and papers summary feed only the
prompt; one generation call, then one render call under a timestamp-derived
filename; either collaborator raising propagates out of the handler.  On
success the file mapping and raw text are stored in the task metadata and a
listing of produced formats is returned. -/
def handle_writing (task : Task) (st : AgentState) :
    Except String String × Task × AgentState :=
  match generate st with
  | (.error e, st') => (.error e, task, st')
  | (.ok review_content, st') =>
      let (ts, st'') := nowTick st'
      let filename := "literature_review_" ++ toString ts
      match st''.docGen review_content filename with
      | .error e => (.error e, task, st'')
      | .ok output_files =>
        let filesVal := PyVal.vDict (output_files.map (fun fp => (fp.1, PyVal.vStr fp.2)))
        let md1 := dictSet task.metadata ("output_files") filesVal
        let md2 := dictSet md1 ("review_content") (.vStr review_content)
        let task' := { task with metadata := md2 }
        let listing := String.join (output_files.map
          (fun fp => "- " ++ fp.1.toUpper ++ ": " ++ fp.2 ++ "\n"))
        (.ok ("Literature review completed!\n\nGenerated files:\n" ++ listing), task', st'')

/-- Handler `_handle_generic_task`: forwards title and description (prompt only)
and returns the generation response unmodified. -/
def handle_generic_task (task : Task) (st : AgentState) :
    Except String String × Task × AgentState :=
  match generate st with
  | (.error e, st') => (.error e, task, st')
  | (.ok r, st') => (.ok r, task, st')

/-- The handlers a task can be routed to. -/
inductive HandlerKind where
  | collect
  | upload
  | analyze
  | outline
  | write
  | generic
deriving DecidableEq

/-- The routing chain of `execute_task`: case-insensitive substring tests on
the title, in source order, first match wins. -/
def route (title : String) : HandlerKind :=
  let t := pyLower title
  if strContains t ("collect") || strContains t ("search") then .collect
  else if strContains t ("upload") || strContains t ("download") then .upload
  else if strContains t ("analyze") || strContains t ("read") then .analyze
  else if strContains t ("outline") || strContains t ("structure") then .outline
  else if strContains t ("write") || strContains t ("review") then .write
  else .generic

/-- The body of the `try` block in `execute_task`: dispatch to the selected
handler. -/
def runHandler (task : Task) (st : AgentState) :
    Except String String × Task × AgentState :=
  match route task.title with
  | .collect => handle_paper_collection task st
  | .upload => handle_paper_upload task st
  | .analyze => handle_paper_analysis task st
  | .outline => handle_outline_creation task st
  | .write => handle_writing task st
  | .generic => handle_generic_task task st

/-- Executor `TaskAgent.execute_task`: mark the task in progress, run the selected
handler; on success store the result, mark completed, stamp `completed_at`
and return true; on an exception store `"Error: "` plus the message, mark
failed and return false — no retry. -/
def execute_task (task : Task) (st : AgentState) : Bool × Task × AgentState :=
  let task := { task with status := TaskStatus.in_progress }
  match runHandler task st with
  | (.ok r, t2, st2) =>
      let (ts, st3) := nowTick st2
      (true, { t2 with result := some r, status := .completed, completed_at := some ts }, st3)
  | (.error e, t2, st2) =>
      (false, { t2 with status := .failed, result := some ("Error: " ++ e) }, st2)

/-- The task loop of `run_workflow`, in sequence order: a task already
waiting on the user is acknowledged and force-completed without the
executor; otherwise the executor runs and a failure aborts the loop,
leaving the remaining tasks untouched. -/
def runTasks : List Task → AgentState → Bool × List Task × AgentState
  | [], st => (true, [], st)
  | t :: rest, st =>
    if t.status = TaskStatus.waiting_user then
      let (ts, st') := nowTick st
      let t' := { t with status := .completed, completed_at := some ts }
      let (ok, rest', st'') := runTasks rest st'
      (ok, t' :: rest', st'')
    else
      match execute_task t st with
      | (true, t', st') =>
          let (ok, rest', st'') := runTasks rest st'
          (ok, t' :: rest', st'')
      | (false, t', st') => (false, t' :: rest, st')

/-- Runner `TaskAgent.run_workflow`: install the workflow as current, run the task
loop, and on a successful full pass persist the snapshot via
`_save_workflow`; on failure return immediately without saving. -/
def run_workflow (wf : Workflow) (st : AgentState) : Bool × Workflow × AgentState :=
  let st := { st with hasWorkflow := true, wfDescription := wf.description, wfMeta := wf.metadata }
  match runTasks wf.tasks st with
  | (true, tasks', st') =>
      let wf' := { wf with tasks := tasks', metadata := st'.wfMeta }
      (true, wf', { st' with saved := some (wf'.id, wf'.to_dict) })
  | (false, tasks', st') =>
      (false, { wf with tasks := tasks', metadata := st'.wfMeta }, st')

/-! Concrete fixtures used by witness theorems. -/

/-- An agent whose generation oracle always returns the text `"hi"`. -/
def stOk : AgentState :=
  { gen := fun _ => .ok ("hi"), docGen := fun _ _ => .ok [] }

/-- A task whose title matches no routing keyword. -/
def tGeneric : Task :=
  { id := "task_g", title := "zzz", description := "d" }

/-- A task already waiting on the user when the runner visits it. -/
def tWait : Task :=
  { id := "task_2", title := "Upload Papers", description := "du",
    status := TaskStatus.waiting_user }

/-- C1: `execute_task` runs the selected handler on the task; if the handler
returns text `r`, the task's `result` is set to `r`, its status to
Completed, its `completed_at` to the current time, and `execute_task`
returns true; if the handler raises with message `m`, the task's `result`
is set to `"Error: "` plus `m`, its status to Failed, and `execute_task`
returns false with no retry (the returned state is exactly the handler
post-state). -/
theorem execute_task_contract (t : Task) (st : AgentState) (r : Except String String)
    (t2 : Task) (st2 : AgentState)
    (h : runHandler { t with status := TaskStatus.in_progress } st = (r, t2, st2)) :
    execute_task t st =
      match r with
      | .ok res =>
          (true,
           { t2 with result := some res, status := .completed, completed_at := some st2.now },
           { st2 with now := st2.now + 1 })
      | .error m =>
          (false, { t2 with status := .failed, result := some ("Error: " ++ m) }, st2) := by
  cases r <;> (simp only [execute_task, nowTick]; rw [h])

theorem execute_task_contract_witness :
    execute_task tGeneric stOk =
      (true,
       { tGeneric with status := .completed, result := some ("hi"), completed_at := some 0 },
       { stOk with genCalls := 1, now := 1 }) := by
  have h := execute_task_contract tGeneric stOk (.ok ("hi"))
    { tGeneric with status := TaskStatus.in_progress } { stOk with genCalls := 1 } rfl
  exact h

theorem runTasks_waiting_step (t : Task) (rest : List Task) (st : AgentState)
    (h : t.status = TaskStatus.waiting_user) :
    runTasks (t :: rest) st =
      ((runTasks rest { st with now := st.now + 1 }).1,
       { t with status := .completed, completed_at := some st.now }
         :: (runTasks rest { st with now := st.now + 1 }).2.1,
       (runTasks rest { st with now := st.now + 1 }).2.2) := by
  simp [runTasks, nowTick, h]

/-- C2: a task whose status is already WaitingUser when the runner visits it
is never passed to the executor: after the (blocking) operator
acknowledgement its status is set directly to Completed with
`completed_at` = now — bypassing InProgress, leaving `result` and metadata
untouched, making no generation call — and the run continues with the next
task. -/
theorem waiting_user_force_completed (t : Task) (rest : List Task) (st : AgentState)
    (h : t.status = TaskStatus.waiting_user) :
    runTasks (t :: rest) st =
      ((runTasks rest { st with now := st.now + 1 }).1,
       { t with status := .completed, completed_at := some st.now }
         :: (runTasks rest { st with now := st.now + 1 }).2.1,
       (runTasks rest { st with now := st.now + 1 }).2.2) :=
  runTasks_waiting_step t rest st h

theorem waiting_user_force_completed_witness :
    runTasks [tWait] stOk =
      (true, [{ tWait with status := .completed, completed_at := some 0 }],
       { stOk with now := 1 }) := by
  have h := waiting_user_force_completed tWait [] stOk rfl
  exact h

theorem execute_task_false_failed (t : Task) (st : AgentState) (t' : Task) (st' : AgentState)
    (h : execute_task t st = (false, t', st')) : t'.status = .failed := by
  simp only [execute_task, nowTick] at h
  rcases hr : runHandler { t with status := TaskStatus.in_progress } st with ⟨r, t2, st2⟩
  rw [hr] at h
  cases r with
  | ok res => simp at h
  | error m =>
    simp only [Prod.mk.injEq] at h
    rw [← h.2.1]

theorem execute_task_true_completed (t : Task) (st : AgentState) (t' : Task) (st' : AgentState)
    (h : execute_task t st = (true, t', st')) :
    t'.status = .completed ∧ t'.result ≠ none ∧ t'.completed_at ≠ none := by
  simp only [execute_task, nowTick] at h
  rcases hr : runHandler { t with status := TaskStatus.in_progress } st with ⟨r, t2, st2⟩
  rw [hr] at h
  cases r with
  | ok res =>
    simp only [Prod.mk.injEq] at h
    rw [← h.2.1]
    exact ⟨rfl, by simp, by simp⟩
  | error m => simp at h

theorem runTasks_append (xs ys : List Task) (st : AgentState) :
    runTasks (xs ++ ys) st =
      if (runTasks xs st).1 then
        ((runTasks ys (runTasks xs st).2.2).1,
         (runTasks xs st).2.1 ++ (runTasks ys (runTasks xs st).2.2).2.1,
         (runTasks ys (runTasks xs st).2.2).2.2)
      else
        (false, (runTasks xs st).2.1 ++ ys, (runTasks xs st).2.2) := by
  induction xs generalizing st with
  | nil => simp [runTasks]
  | cons x xs' ih =>
    by_cases hw : x.status = TaskStatus.waiting_user
    · rw [List.cons_append, runTasks_waiting_step x (xs' ++ ys) st hw,
         runTasks_waiting_step x xs' st hw, ih]
      by_cases hok : (runTasks xs' { st with now := st.now + 1 }).1 <;> simp [hok]
    · rcases hex : execute_task x st with ⟨okex, t', stex⟩
      have hL : runTasks (x :: (xs' ++ ys)) st =
          match execute_task x st with
          | (true, t', st') =>
              ((runTasks (xs' ++ ys) st').1, t' :: (runTasks (xs' ++ ys) st').2.1,
               (runTasks (xs' ++ ys) st').2.2)
          | (false, t', st') => (false, t' :: (xs' ++ ys), st') := by
        rw [runTasks, if_neg hw]
      have hR : runTasks (x :: xs') st =
          match execute_task x st with
          | (true, t', st') =>
              ((runTasks xs' st').1, t' :: (runTasks xs' st').2.1, (runTasks xs' st').2.2)
          | (false, t', st') => (false, t' :: xs', st') := by
        rw [runTasks, if_neg hw]
      rw [List.cons_append, hL, hR, hex]
      cases okex with
      | true =>
        dsimp only
        rw [ih]
        by_cases hok : (runTasks xs' stex).1 <;> simp [hok]
      | false => simp

theorem runTasks_true_completed (xs : List Task) (st : AgentState)
    (h : (runTasks xs st).1 = true) :
    ∀ u ∈ (runTasks xs st).2.1, u.status = .completed := by
  induction xs generalizing st with
  | nil => intro u hu; simp [runTasks] at hu
  | cons x xs' ih =>
    intro u hu
    by_cases hw : x.status = TaskStatus.waiting_user
    · rw [runTasks_waiting_step x xs' st hw] at h hu
      dsimp only at h hu
      rcases List.mem_cons.mp hu with rfl | hmem
      · rfl
      · exact ih _ h _ hmem
    · rw [runTasks, if_neg hw] at h hu
      rcases hex : execute_task x st with ⟨okex, t', stex⟩
      rw [hex] at h hu
      cases okex with
      | true =>
        dsimp only at h hu
        rcases List.mem_cons.mp hu with rfl | hmem
        · exact (execute_task_true_completed x st _ _ hex).1
        · exact ih _ h _ hmem
      | false =>
        dsimp only at h
        exact absurd h (by simp)

/-- C3: if the run reaches position `i` (every earlier task executed
successfully or was acknowledged) and the Executor reports failure on the
task there, then the run returns false immediately with the failure-step
state as its final state (no further effects, no save): the resulting task
list is the prefix the run had already produced — those tasks placed there
verbatim, so they retain their Completed status and their result texts (no
rollback) — then the task at `i` with status Failed, then the remaining
tasks exactly as they were (a Pending task after `i` stays Pending). -/
theorem run_failure_aborts (pre : List Task) (t : Task) (rest : List Task)
    (st : AgentState) (tf : Task) (stf : AgentState)
    (hpre : (runTasks pre st).1 = true)
    (hw : t.status ≠ TaskStatus.waiting_user)
    (hfail : execute_task t (runTasks pre st).2.2 = (false, tf, stf)) :
    runTasks (pre ++ t :: rest) st =
      (false, (runTasks pre st).2.1 ++ tf :: rest, stf) ∧
    tf.status = .failed ∧
    (∀ u ∈ (runTasks pre st).2.1, u.status = .completed) := by
  refine ⟨?_, execute_task_false_failed t _ tf stf hfail,
          runTasks_true_completed pre st hpre⟩
  rw [runTasks_append pre (t :: rest) st, hpre, if_pos rfl,
      runTasks, if_neg hw, hfail]

/-- An agent whose generation oracle always raises with message `"boom"`. -/
def stBoom : AgentState :=
  { gen := fun _ => .error ("boom"), docGen := fun _ _ => .ok [] }

/-- A pending task placed after the failing one. -/
def tAfter : Task :=
  { id := "task_after", title := "qqq", description := "d2" }

theorem run_failure_aborts_witness :
    runTasks ([tWait] ++ tGeneric :: [tAfter]) stBoom =
      (false,
       (runTasks [tWait] stBoom).2.1 ++
         ({ tGeneric with status := TaskStatus.failed, result := some ("Error: boom") } : Task) :: [tAfter],
       { stBoom with genCalls := 1, now := 1 }) :=
  (run_failure_aborts [tWait] tGeneric [tAfter] stBoom
      { tGeneric with status := TaskStatus.failed, result := some ("Error: boom") }
      { stBoom with genCalls := 1, now := 1 }
      rfl (by decide) rfl).1

/-- The routing table as the specification words it: keyword pairs in
precedence order, each mapped to its handler. -/
def specTable : List (List String × HandlerKind) :=
  [ (["collect", "search"], .collect),
    (["upload", "download"], .upload),
    (["analyze", "read"], .analyze),
    (["outline", "structure"], .outline),
    (["write", "review"], .write) ]

/-- Routing as the specification words it: the first table entry one of
whose keywords occurs case-insensitively in the title wins; otherwise the
generic handler. -/
def routeSpec (title : String) : HandlerKind :=
  match specTable.find? (fun e => e.1.any (fun k => strContains (pyLower title) k)) with
  | some e => e.2
  | none => .generic

/-- C4: the executor selects the handler by case-insensitive substring
match on the title in the fixed precedence order collect/search,
upload/download, analyze/read, outline/structure, write/review, else
generic, first match winning; in particular a task titled
"Search and Write" is routed to the collect handler. -/
theorem route_follows_spec_order :
    (∀ title, route title = routeSpec title) ∧ route ("Search and Write") = .collect := by
  constructor
  · intro title
    unfold route routeSpec specTable
    cases h1 : strContains (pyLower title) ("collect") <;>
      cases h2 : strContains (pyLower title) ("search") <;>
        cases h3 : strContains (pyLower title) ("upload") <;>
          cases h4 : strContains (pyLower title) ("download") <;>
            cases h5 : strContains (pyLower title) ("analyze") <;>
              cases h6 : strContains (pyLower title) ("read") <;>
                cases h7 : strContains (pyLower title) ("outline") <;>
                  cases h8 : strContains (pyLower title) ("structure") <;>
                    cases h9 : strContains (pyLower title) ("write") <;>
                      cases h10 : strContains (pyLower title) ("review") <;>
                        simp [List.find?, h1, h2, h3, h4, h5, h6, h7, h8, h9, h10]
  · rfl

/-- C8: the upload handler makes no call to the generation collaborator and
no other change to the agent, unconditionally sets the task status to
WaitingUser as its only task write, and returns instruction text that
references the configured papers directory. -/
theorem upload_handler_contract :
    (∀ t st, handle_paper_upload t st =
      (.ok (uploadInstructions st.papersDir), { t with status := .waiting_user }, st)) ∧
    (∀ dir, ∃ pre post, uploadInstructions dir = pre ++ dir ++ post) := by
  refine ⟨fun t st => rfl, fun dir => ⟨"Papers should be uploaded to: ", ?_, ?_⟩⟩
  · exact (("\n\nInstructions:\n1. Download the suggested papers\n2. Save them in the papers directory: ")
      ++ dir ++ ("\n3. Register them using the add_papers() method\n\nOnce papers are uploaded, continue to the next task."))
  · rfl

/-- C5: serialization round trips are lossless: deserializing a serialized
task rebuilds it field for field (`completed_at` unset exactly when it was
unset), and loading a saved workflow snapshot rebuilds the workflow exactly
— in particular task order, task ids, task statuses and the cursor. -/
theorem serialization_roundtrip_lossless :
    (∀ t : Task, (Task.from_dict t.to_dict).map Prod.fst = .ok t) ∧
    (∀ (w : Workflow) (fc : FileContent), w.save = some fc → Workflow.load fc = .ok w) :=
  ⟨from_dict_to_dict, load_save⟩

/-- A concrete workflow holding one task. -/
def wW : Workflow :=
  { id := "wf", title := "W", description := "topic", tasks := [tGeneric] }

theorem serialization_roundtrip_lossless_witness :
    (Task.from_dict tWait.to_dict).map Prod.fst = .ok tWait ∧
      Workflow.load (FileContent.json wW.to_dict) = .ok wW := by
  refine ⟨serialization_roundtrip_lossless.1 tWait,
          serialization_roundtrip_lossless.2 wW (FileContent.json wW.to_dict) ?_⟩
  simp [Workflow.save, Workflow.to_dict, Task.to_dict, PyVal.jsonSafe, jsonSafeList,
        jsonSafeDict, wW, tGeneric]

theorem handle_paper_collection_frame (t : Task) (st : AgentState) :
    (handle_paper_collection t st).2.1.result = t.result ∧
      (handle_paper_collection t st).2.1.completed_at = t.completed_at := by
  unfold handle_paper_collection generate
  cases st.gen st.genCalls <;> simp

theorem handle_paper_analysis_frame (t : Task) (st : AgentState) :
    (handle_paper_analysis t st).2.1.result = t.result ∧
      (handle_paper_analysis t st).2.1.completed_at = t.completed_at := by
  unfold handle_paper_analysis
  by_cases hp : st.papers.isEmpty <;> simp [hp]

theorem handle_outline_creation_frame (t : Task) (st : AgentState) :
    (handle_outline_creation t st).2.1.result = t.result ∧
      (handle_outline_creation t st).2.1.completed_at = t.completed_at := by
  unfold handle_outline_creation generate
  cases st.gen st.genCalls <;> simp

theorem handle_writing_frame (t : Task) (st : AgentState) :
    (handle_writing t st).2.1.result = t.result ∧
      (handle_writing t st).2.1.completed_at = t.completed_at := by
  unfold handle_writing generate nowTick
  cases st.gen st.genCalls with
  | error e => simp
  | ok r =>
    dsimp only
    cases ({ st with genCalls := st.genCalls + 1, now := st.now + 1 } : AgentState).docGen r
        ("literature_review_" ++ toString st.now) <;> simp

theorem handle_generic_task_frame (t : Task) (st : AgentState) :
    (handle_generic_task t st).2.1.result = t.result ∧
      (handle_generic_task t st).2.1.completed_at = t.completed_at := by
  unfold handle_generic_task generate
  cases st.gen st.genCalls <;> simp

/-- No handler touches a task's `result` or `completed_at`; only the
executor and the runner write those fields. -/
theorem runHandler_frame (t : Task) (st : AgentState) :
    (runHandler t st).2.1.result = t.result ∧
      (runHandler t st).2.1.completed_at = t.completed_at := by
  unfold runHandler
  cases route t.title
  case collect => exact handle_paper_collection_frame t st
  case upload => exact ⟨rfl, rfl⟩
  case analyze => exact handle_paper_analysis_frame t st
  case outline => exact handle_outline_creation_frame t st
  case write => exact handle_writing_frame t st
  case generic => exact handle_generic_task_frame t st

theorem execute_task_false_props (t : Task) (st : AgentState) (t' : Task) (st' : AgentState)
    (h : execute_task t st = (false, t', st')) :
    t'.status = .failed ∧ t'.result ≠ none ∧ t'.completed_at = t.completed_at := by
  simp only [execute_task, nowTick] at h
  rcases hr : runHandler { t with status := TaskStatus.in_progress } st with ⟨r, t2, st2⟩
  have hframe := runHandler_frame { t with status := TaskStatus.in_progress } st
  rw [hr] at h hframe
  cases r with
  | ok res => simp at h
  | error m =>
    simp only [Prod.mk.injEq] at h
    rw [← h.2.1]
    exact ⟨rfl, by simp, hframe.2⟩

/-- Decidable form of the §3 task invariant as the claim states it, with
the `result` direction weakened to the implication the code maintains. -/
def taskInvariantOk (t : Task) : Bool :=
  decide ((t.completed_at ≠ none) ↔ t.status = TaskStatus.completed) &&
    decide (t.result ≠ none → (t.status = TaskStatus.completed ∨ t.status = TaskStatus.failed))

/-- A freshly constructed task: status Pending or WaitingUser, `result` and
`completed_at` unset — the shape produced by construction and by the
decomposition step. -/
def freshTaskOk (t : Task) : Bool :=
  (decide (t.status = TaskStatus.pending) || decide (t.status = TaskStatus.waiting_user)) &&
    decide (t.result = none) && decide (t.completed_at = none)

/-- C6 counterexample: the runner acknowledgement path yields a reachable
task with status Completed and `result` unset, so "`result` is set if and
only if status is Completed or Failed" is false for tasks reachable through
the public operations. -/
theorem run_invariant_result_cex :
    ((runTasks [tWait] stOk).2.1.all
      (fun t => decide (t.result ≠ none ↔ (t.status = TaskStatus.completed ∨ t.status = TaskStatus.failed)))) = false := rfl

/-- C6 amended: for workflows of freshly constructed tasks, every task
reachable through the runner (hence through the executor) satisfies
`completed_at` set iff status Completed, and `result` set only if status is
Completed or Failed; the converse of the `result` direction fails on
force-completed WaitingUser tasks. -/
theorem run_preserves_invariant (tasks : List Task) (st : AgentState)
    (h : tasks.all freshTaskOk = true) :
    ((runTasks tasks st).2.1.all taskInvariantOk) = true := by
  rw [List.all_eq_true] at h ⊢
  induction tasks generalizing st with
  | nil => intro t' ht'; simp [runTasks] at ht'
  | cons t rest ih =>
    have hfresh := h t (by simp)
    simp only [freshTaskOk, Bool.and_eq_true, Bool.or_eq_true, decide_eq_true_eq] at hfresh
    obtain ⟨⟨hstat, hres⟩, hcomp⟩ := hfresh
    intro t' ht'
    by_cases hw : t.status = TaskStatus.waiting_user
    · rw [runTasks_waiting_step t rest st hw] at ht'
      rcases List.mem_cons.mp ht' with heq | hmem
      · subst heq
        simp [taskInvariantOk, hres]
      · exact ih _ (fun u hu => h u (List.mem_cons_of_mem _ hu)) _ hmem
    · rw [runTasks, if_neg hw] at ht'
      rcases hex : execute_task t st with ⟨okex, te, stex⟩
      rw [hex] at ht'
      cases okex with
      | true =>
        dsimp only at ht'
        rcases List.mem_cons.mp ht' with heq | hmem
        · subst heq
          obtain ⟨h1, h2, h3⟩ := execute_task_true_completed t st t' stex hex
          simp [taskInvariantOk, h1, h2, h3]
        · exact ih _ (fun u hu => h u (List.mem_cons_of_mem _ hu)) _ hmem
      | false =>
        dsimp only at ht'
        rcases List.mem_cons.mp ht' with heq | hmem
        · subst heq
          obtain ⟨h1, h2, h3⟩ := execute_task_false_props t st t' stex hex
          simp [taskInvariantOk, h1, h2, h3, hcomp]
        · have hu := h _ (List.mem_cons_of_mem _ hmem)
          simp only [freshTaskOk, Bool.and_eq_true, Bool.or_eq_true, decide_eq_true_eq] at hu
          obtain ⟨⟨hs, hr⟩, hc⟩ := hu
          rcases hs with hs | hs <;> simp [taskInvariantOk, hs, hr, hc]

theorem run_preserves_invariant_witness :
    ((runTasks [tGeneric, tWait] stOk).2.1.all taskInvariantOk) = true :=
  run_preserves_invariant [tGeneric, tWait] stOk rfl

/-- The per-paper sections as determined by the oracle alone: the paper at
offset `k` of the list consumes generation call `base + k`, succeeding or
failing independently of the other papers. -/
def sectionsFrom (g : Nat → Except String String) (base : Nat) : List Paper → List String
  | [] => []
  | p :: rest => analysisSection p.title (g base) :: sectionsFrom g (base + 1) rest

theorem analysisLoop_sections (ps : List Paper) (st : AgentState) :
    (analysisLoop ps st).1 = sectionsFrom st.gen st.genCalls ps := by
  induction ps generalizing st with
  | nil => rfl
  | cons p rest ih =>
    cases hg : st.gen st.genCalls with
    | ok analysis => simp [analysisLoop, generate, hg, ih, sectionsFrom]
    | error e => simp [analysisLoop, generate, hg, ih, sectionsFrom]

/-- A known paper. -/
def pOne : Paper := { title := "P1" }

/-- A second known paper. -/
def pTwo : Paper := { title := "P2" }

/-- An agent knowing one paper, whose collaborator succeeds with `"A"`. -/
def stOnePaper : AgentState :=
  { gen := fun _ => .ok ("A"), docGen := fun _ _ => .ok [], papers := [pOne] }

/-- An agent knowing two papers, whose collaborator succeeds for the first
generation call and raises for every later one. -/
def stMixed : AgentState :=
  { gen := fun k => if k = 0 then .ok ("A") else .error ("boom2"),
    docGen := fun _ _ => .ok [], papers := [pOne, pTwo] }

/-- A task routed to the analysis handler. -/
def tAnalyze : Task := { id := "t_an", title := "Analyze Papers", description := "da" }

/-- C7 counterexample: with one known paper and a succeeding collaborator,
the Analyze handler returns a count header followed by the per-paper
sections — not the bare concatenation of the per-paper sections the claim
states. -/
theorem analysis_not_bare_concat_cex :
    (handle_paper_analysis tAnalyze stOnePaper).1 = .ok ("Analyzed 1 papers.\n\n### P1\n\nA") ∧
      ("Analyzed 1 papers.\n\n### P1\n\nA" : String) ≠
        String.intercalate ("\n\n") [analysisSection ("P1") (.ok ("A"))] :=
  ⟨rfl, by decide⟩

/-- C7 amended: the Analyze handler catches each per-paper generation
failure individually, records an error-annotated section for that paper
without aborting the remaining papers, and never raises; for a non-empty
paper list it returns the count header followed by all per-paper sections
(successful or error-annotated) joined by blank lines. -/
theorem analysis_partial_failure (t : Task) (st : AgentState) :
    (∃ r, (handle_paper_analysis t st).1 = .ok r) ∧
    (st.papers ≠ [] →
      (handle_paper_analysis t st).1 =
        .ok ("Analyzed " ++ toString st.papers.length ++ " papers.\n\n" ++
          String.intercalate ("\n\n") (sectionsFrom st.gen st.genCalls st.papers))) := by
  constructor
  · unfold handle_paper_analysis
    by_cases hp : st.papers.isEmpty <;> simp [hp]
  · intro hne
    have hp : st.papers.isEmpty = false := by simpa [List.isEmpty_iff] using hne
    simp [handle_paper_analysis, hp, analysisLoop_sections]

theorem analysis_partial_failure_witness :
    (handle_paper_analysis tAnalyze stMixed).1 =
      .ok ("Analyzed " ++ toString stMixed.papers.length ++ " papers.\n\n" ++
        String.intercalate ("\n\n") (sectionsFrom stMixed.gen stMixed.genCalls stMixed.papers)) :=
  (analysis_partial_failure tAnalyze stMixed).2 (by simp [stMixed])

theorem empty_isEmpty : ("" : String).isEmpty = true := rfl

/-- Whether an `Except` is a success. -/
def exOk {ε α : Type} : Except ε α → Bool
  | .ok _ => true
  | .error _ => false

/-- A task record of the shape JSON produces for a task: the eight expected
keys, string `id`/`title`/`description`, a string status tag, optional
string result, string `created_at`, optional string `completed_at`,
dictionary metadata. -/
def mkTaskRecord (i ti de sv : String) (rv : Option String) (cv : String)
    (dv : Option String) (md : PyDict) : PyDict :=
  [ ("id", .vStr i),
    ("title", .vStr ti),
    ("description", .vStr de),
    ("status", .vStr sv),
    ("result", match rv with | some s => .vStr s | none => .vNone),
    ("created_at", .vStr cv),
    ("completed_at", match dv with | some s => .vStr s | none => .vNone),
    ("metadata", .vDict md) ]

theorem from_dict_mk_fail_iff (i ti de sv : String) (rv : Option String) (cv : String)
    (dv : Option String) (md : PyDict) :
    exOk (Task.from_dict (mkTaskRecord i ti de sv rv cv dv md)) = false ↔
      (TaskStatus.ofTag? sv = none ∨ fromisoformat? cv = none ∨
        ∃ s, dv = some s ∧ s ≠ "" ∧ fromisoformat? s = none) := by
  cases hs : TaskStatus.ofTag? sv with
  | none =>
      simp [Task.from_dict, mkTaskRecord, dictGet, statusCall, hs, exOk]
  | some st =>
      cases hc : fromisoformat? cv with
      | none =>
          simp [Task.from_dict, mkTaskRecord, dictGet, dictSet, statusCall, fromisoCall,
                hs, hc, exOk]
      | some cn =>
          cases dv with
          | none =>
              cases rv <;>
                simp [Task.from_dict, mkTaskRecord, dictGet, dictSet, statusCall, fromisoCall,
                      taskCtor, taskKeys, PyVal.truthy, hs, hc, exOk]
          | some s =>
              by_cases hse : s = ""
              · subst hse
                cases rv <;>
                  simp [Task.from_dict, mkTaskRecord, dictGet, dictSet, statusCall, fromisoCall,
                        taskCtor, taskKeys, PyVal.truthy, hs, hc, exOk, empty_isEmpty]
              · have hEmpty : s.isEmpty = false := by
                  rw [← Bool.not_eq_true, String.isEmpty_iff]; exact hse
                cases hds : fromisoformat? s with
                | none =>
                    simp [Task.from_dict, mkTaskRecord, dictGet, dictSet, statusCall, fromisoCall,
                          PyVal.truthy, hs, hc, hds, hse, hEmpty, exOk]
                | some dn =>
                    cases rv <;>
                      simp [Task.from_dict, mkTaskRecord, dictGet, dictSet, statusCall, fromisoCall,
                            taskCtor, taskKeys, PyVal.truthy, hs, hc, hds, hse, hEmpty, exOk]

theorem from_dict_mk_metadata (i ti de sv : String) (rv : Option String) (cv : String)
    (dv : Option String) (md : PyDict) (t : Task) (d' : PyDict)
    (h : Task.from_dict (mkTaskRecord i ti de sv rv cv dv md) = .ok (t, d')) :
    t.metadata = md := by
  cases hs : TaskStatus.ofTag? sv with
  | none =>
      simp [Task.from_dict, mkTaskRecord, dictGet, statusCall, hs] at h
  | some st =>
      cases hc : fromisoformat? cv with
      | none =>
          simp [Task.from_dict, mkTaskRecord, dictGet, dictSet, statusCall, fromisoCall,
                hs, hc] at h
      | some cn =>
          cases dv with
          | none =>
              cases rv <;>
                (simp [Task.from_dict, mkTaskRecord, dictGet, dictSet, statusCall, fromisoCall,
                       taskCtor, taskKeys, PyVal.truthy, hs, hc] at h;
                 obtain ⟨h1, -⟩ := h; subst h1; rfl)
          | some s =>
              by_cases hse : s = ""
              · subst hse
                cases rv <;>
                  (simp [Task.from_dict, mkTaskRecord, dictGet, dictSet, statusCall, fromisoCall,
                         taskCtor, taskKeys, PyVal.truthy, hs, hc, empty_isEmpty] at h;
                   obtain ⟨h1, -⟩ := h; subst h1; rfl)
              · have hEmpty : s.isEmpty = false := by
                  rw [← Bool.not_eq_true, String.isEmpty_iff]; exact hse
                cases hds : fromisoformat? s with
                | none =>
                    simp [Task.from_dict, mkTaskRecord, dictGet, dictSet, statusCall, fromisoCall,
                          PyVal.truthy, hs, hc, hds, hEmpty] at h
                | some dn =>
                    cases rv <;>
                      (simp [Task.from_dict, mkTaskRecord, dictGet, dictSet, statusCall,
                             fromisoCall, taskCtor, taskKeys, PyVal.truthy, hs, hc, hds,
                             hEmpty] at h;
                       obtain ⟨h1, -⟩ := h; subst h1; rfl)

theorem load_json_cases (v : PyVal) :
    Workflow.load (.json v) = .error .formatError ∨ ∃ w, Workflow.load (.json v) = .ok w := by
  unfold Workflow.load
  (repeat' split) <;> simp_all

/-- C9 amended: on well-shaped records, task deserialization fails exactly
when the status tag is unknown, `created_at` does not parse, or a
`completed_at` string is non-empty and does not parse — an empty
`completed_at` string is falsy and is silently accepted as unset rather
than rejected; no other validation is performed (metadata passes through
unchanged).  `Workflow.load` fails with `IOError` exactly on an unreadable
path; every other failure is `FormatError`. -/
theorem deserialization_failure_conditions :
    (∀ i ti de sv rv cv dv md,
      exOk (Task.from_dict (mkTaskRecord i ti de sv rv cv dv md)) = false ↔
        (TaskStatus.ofTag? sv = none ∨ fromisoformat? cv = none ∨
          ∃ s, dv = some s ∧ s ≠ "" ∧ fromisoformat? s = none)) ∧
    (∀ i ti de sv rv cv dv md t d',
      Task.from_dict (mkTaskRecord i ti de sv rv cv dv md) = .ok (t, d') → t.metadata = md) ∧
    Workflow.load .unreadable = .error .ioError ∧
    (∀ c, c ≠ FileContent.unreadable → ∀ e, Workflow.load c = .error e → e = .formatError) := by
  refine ⟨from_dict_mk_fail_iff, from_dict_mk_metadata, rfl, ?_⟩
  intro c hc e h
  cases c with
  | unreadable => exact absurd rfl hc
  | garbage => injection h with he; exact he.symm
  | json v =>
    rcases load_json_cases v with hl | ⟨w, hl⟩
    · rw [hl] at h; injection h with he; exact he.symm
    · rw [hl] at h; exact Except.noConfusion h

/-- The task rebuilt from the record used in the witness below. -/
def t9 : Task :=
  { id := "a", title := "b", description := "c", status := .pending,
    result := none, created_at := 3, completed_at := none,
    metadata := [("k", PyVal.vStr ("v"))] }

/-- The mutated record left behind by the witness deserialization. -/
def d9 : PyDict :=
  [ ("id", .vStr ("a")),
    ("title", .vStr ("b")),
    ("description", .vStr ("c")),
    ("status", .vStatus .pending),
    ("result", .vNone),
    ("created_at", .vDatetime 3),
    ("completed_at", .vNone),
    ("metadata", .vDict [("k", PyVal.vStr ("v"))]) ]

theorem deserialization_failure_conditions_witness :
    t9.metadata = [("k", PyVal.vStr ("v"))] ∧ LoadErr.formatError = LoadErr.formatError :=
  ⟨deserialization_failure_conditions.2.1 ("a") ("b") ("c") ("pending") none (isoformat 3) none
      [("k", PyVal.vStr ("v"))] t9 d9 rfl,
   deserialization_failure_conditions.2.2.2 FileContent.garbage
      (fun h => FileContent.noConfusion h) LoadErr.formatError rfl⟩

/-- C9 counterexample: a well-shaped record whose `completed_at` timestamp
string is empty — hence not parseable — deserializes successfully, because
the truthiness test skips parsing; this contradicts "fails ... exactly when
... a timestamp string is not parseable". -/
theorem empty_timestamp_accepted_cex :
    exOk (Task.from_dict (mkTaskRecord ("e1") ("T") ("D") ("pending") none (isoformat 0) (some ("")) []))
        = true ∧
      fromisoformat? ("") = none :=
  ⟨rfl, rfl⟩

/-- C10 amended: a successful `Task.from_dict` has mutated the record of
the caller in place: the `status` entry now holds the parsed enum member, the
`created_at` entry the parsed datetime object, and a truthy (non-empty)
`completed_at` string entry the parsed datetime — so the record never
remains unchanged.  A falsy `completed_at` entry (such as the empty string,
which is non-null) is left in place, unlike "(when non-null)" states. -/
theorem from_dict_mutates_record (i ti de sv : String) (rv : Option String) (cv : String)
    (dv : Option String) (md : PyDict) (t : Task) (d' : PyDict)
    (h : Task.from_dict (mkTaskRecord i ti de sv rv cv dv md) = .ok (t, d')) :
    dictGet d' ("status") = some (.vStatus t.status) ∧
    dictGet d' ("created_at") = some (.vDatetime t.created_at) ∧
    (∀ s, dv = some s → s ≠ "" →
      ∃ n, fromisoformat? s = some n ∧ dictGet d' ("completed_at") = some (.vDatetime n)) ∧
    d' ≠ mkTaskRecord i ti de sv rv cv dv md := by
  cases hs : TaskStatus.ofTag? sv with
  | none => simp [Task.from_dict, mkTaskRecord, dictGet, statusCall, hs] at h
  | some st =>
    cases hc : fromisoformat? cv with
    | none =>
      simp [Task.from_dict, mkTaskRecord, dictGet, dictSet, statusCall, fromisoCall,
            hs, hc] at h
    | some cn =>
      cases dv with
      | none =>
        cases rv <;>
          (simp [Task.from_dict, mkTaskRecord, dictGet, dictSet, statusCall, fromisoCall,
                 taskCtor, taskKeys, PyVal.truthy, hs, hc] at h;
           obtain ⟨h1, h2⟩ := h; subst h1; subst h2;
           exact ⟨rfl, rfl, by simp, by simp [mkTaskRecord]⟩)
      | some s =>
        by_cases hse : s = ""
        · subst hse
          cases rv <;>
            (simp [Task.from_dict, mkTaskRecord, dictGet, dictSet, statusCall, fromisoCall,
                   taskCtor, taskKeys, PyVal.truthy, hs, hc, empty_isEmpty] at h;
             obtain ⟨h1, h2⟩ := h; subst h1; subst h2;
             refine ⟨rfl, rfl, ?_, by simp [mkTaskRecord]⟩;
             intro s' hs' hne'; exact absurd hs'.symm (by simpa using hne'))
        · have hEmpty : s.isEmpty = false := by
            rw [← Bool.not_eq_true, String.isEmpty_iff]; exact hse
          cases hds : fromisoformat? s with
          | none =>
            simp [Task.from_dict, mkTaskRecord, dictGet, dictSet, statusCall, fromisoCall,
                  PyVal.truthy, hs, hc, hds, hEmpty] at h
          | some dn =>
            cases rv <;>
              (simp [Task.from_dict, mkTaskRecord, dictGet, dictSet, statusCall, fromisoCall,
                     taskCtor, taskKeys, PyVal.truthy, hs, hc, hds, hEmpty] at h;
               obtain ⟨h1, h2⟩ := h; subst h1; subst h2;
               refine ⟨rfl, rfl, ?_, by simp [mkTaskRecord]⟩;
               intro s' hs' hne';
               have hss : s = s' := Option.some_inj.mp hs';
               subst hss;
               exact ⟨dn, hds, rfl⟩)

/-- The task rebuilt from the record used in the mutation witness below. -/
def t10b : Task :=
  { id := "w0", title := "T", description := "D", status := .failed,
    result := some ("r"), created_at := 2, completed_at := some 5, metadata := [] }

/-- The mutated record left behind by the mutation witness below. -/
def d10b : PyDict :=
  [ ("id", .vStr ("w0")),
    ("title", .vStr ("T")),
    ("description", .vStr ("D")),
    ("status", .vStatus .failed),
    ("result", .vStr ("r")),
    ("created_at", .vDatetime 2),
    ("completed_at", .vDatetime 5),
    ("metadata", .vDict []) ]

theorem from_dict_mutates_record_witness :
    dictGet d10b ("status") = some (PyVal.vStatus TaskStatus.failed) ∧
      d10b ≠ mkTaskRecord ("w0") ("T") ("D") ("failed") (some ("r")) (isoformat 2) (some (isoformat 5)) [] :=
  ⟨(from_dict_mutates_record ("w0") ("T") ("D") ("failed") (some ("r")) (isoformat 2) (some (isoformat 5))
      [] t10b d10b rfl).1,
   (from_dict_mutates_record ("w0") ("T") ("D") ("failed") (some ("r")) (isoformat 2) (some (isoformat 5))
      [] t10b d10b rfl).2.2.2⟩

/-- C10 counterexample: on a record whose `completed_at` entry is the empty
string — non-null — a successful `Task.from_dict` leaves that entry holding
the raw string, not a parsed datetime object, contrary to the stated
"overwrites ... (when non-null) 'completed_at' ... with the parsed ...
datetime objects". -/
theorem completed_entry_not_overwritten_cex :
    (Task.from_dict (mkTaskRecord ("m1") ("T") ("D") ("pending") none (isoformat 1) (some ("")) [])).map
        (fun td => dictGet td.2 ("completed_at")) = .ok (some (PyVal.vStr (""))) ∧
      PyVal.vStr ("") ≠ PyVal.vNone ∧
      (∀ n : Nat, PyVal.vStr ("") ≠ PyVal.vDatetime n) :=
  ⟨rfl, fun hne => PyVal.noConfusion hne, fun _ hne => PyVal.noConfusion hne⟩

end TaskAgent
